import Mathlib

/-!
Verification of the proxyme SOCKS5 server library.

This file gives a shallow embedding, in Lean 4, of the wire codec
(messages.go), the per-connection protocol engine (the transition functions
of the protocol state machine), the authentication handlers (auth.go), the
GSS-API encapsulated connection (conn.go) and the server constructor
(server.go), and proves or refutes the frozen specification claims about
them.

Bytes are modelled as natural numbers (every value on the wire is < 256);
the few places where Go narrows an integer (uint8 and uint16 conversions)
use an explicit modulus.  Streams are lists of bytes; readers consume a
prefix and return the rest, writers produce the emitted bytes together with
an optional error, mirroring the partial-write behaviour of the Go code.
-/

set_option maxRecDepth 8192

deriving instance DecidableEq for Except

namespace Proxyme

/-- A wire byte, as a natural number (< 256 on the wire). -/
abbrev Byte := Nat

/-- SOCKS protocol version (protoVersion in the source). -/
def protoVersion : Byte := 5

/-- Subnegotiation version (subnVersion in the source). -/
def subnVersion : Byte := 1

def typeNoAuth : Byte := 0

def typeGSSAPI : Byte := 1

def typeLogin : Byte := 2

def typeError : Byte := 0xff

def ipv4 : Byte := 1

def domainName : Byte := 3

def ipv6 : Byte := 4

def cmdConnect : Byte := 1

def cmdBind : Byte := 2

def cmdUdpAssoc : Byte := 3

def succeeded : Byte := 0

def sockFailure : Byte := 1

def notAllowed : Byte := 2

def networkUnreachable : Byte := 3

def hostUnreachable : Byte := 4

def connectionRefused : Byte := 5

def ttlExpired : Byte := 6

def notSupported : Byte := 7

def addressNotSupported : Byte := 8

/-- Login reply status Success (RFC 1929). -/
def success : Byte := 0

/-- Login reply status Failure (RFC 1929). -/
def denied : Byte := 0xff

def gssMaxTokenSize : Nat := 2 ^ 16 - 1

def gssAuthentication : Byte := 1

def gssProtection : Byte := 2

def gssEncapsulation : Byte := 3

/-- Errors a reader or writer of wire frames can produce.  `eof` stands for
any short-read or short-write I/O failure; `invalidAddrType` is
errInvalidAddrType of the source; `tooBigToken` is the oversized-token
write error of gssapiMessage.WriteTo. -/
inductive WireErr where
  | eof
  | invalidAddrType
  | tooBigToken
deriving DecidableEq, Repr

/-- Validation errors (the distinct error returns of the validate methods). -/
inductive ValErr where
  | badVersion
  | emptyMethods
  | badRsv
  | invalidAddrType
  | badAddr
  | badPort
  | badSubnVersion
  | emptyUsername
  | emptyPassword
  | tooBigToken
  | badMessageType
deriving DecidableEq, Repr

/-- Read one byte from the stream (binary.Read of a uint8). -/
def readByte : List Byte → Except WireErr (Byte × List Byte)
  | [] => .error .eof
  | b :: bs => .ok (b, bs)

/-- Read exactly `k` bytes from the stream (io.ReadFull / a loop of
single-byte reads); fails if fewer are available. -/
def readChunk (k : Nat) (bs : List Byte) : Except WireErr (List Byte × List Byte) :=
  if k ≤ bs.length then .ok (bs.take k, bs.drop k) else .error .eof

/-- Read a big-endian uint16 (binary.Read of a uint16). -/
def readU16 : List Byte → Except WireErr (Nat × List Byte)
  | hi :: lo :: bs => .ok (hi * 256 + lo, bs)
  | _ => .error .eof

/-- Big-endian encoding of a uint16 value (binary.Write of a uint16). -/
def word16 (v : Nat) : List Byte := [v / 256 % 256, v % 256]

/-- MethodRequest (authRequest in messages.go). -/
structure authRequest where
  version : Byte
  methods : List Byte
deriving DecidableEq, Repr

/-- authRequest.ReadFrom of messages.go: version byte, count byte, then that
many method bytes. -/
def authRequest.ReadFrom (bs : List Byte) : Except WireErr (authRequest × List Byte) := do
  let (v, bs) ← readByte bs
  let (size, bs) ← readByte bs
  let (ms, bs) ← readChunk size bs
  .ok ({ version := v, methods := ms }, bs)

/-- authRequest.validate of messages.go. -/
def authRequest.validate (a : authRequest) : Except ValErr Unit :=
  if a.version ≠ protoVersion then .error .badVersion
  else if a.methods.length = 0 then .error .emptyMethods
  else .ok ()

/-- MethodReply (authReply in messages.go). -/
structure authReply where
  method : Byte
deriving DecidableEq, Repr

/-- authReply.WriteTo of messages.go: the constant protocol version byte
followed by the selected method byte.  This write cannot fail except for
I/O, which the byte-list model does not track. -/
def authReply.WriteTo (a : authReply) : List Byte := [protoVersion, a.method]

/-- CommandRequest (commandRequest in messages.go). -/
structure commandRequest where
  version : Byte := 0
  commandType : Byte := 0
  rsv : Byte := 0
  addressType : Byte := 0
  addr : List Byte := []
  port : Nat := 0
deriving DecidableEq, Repr

instance : Inhabited commandRequest := ⟨{}⟩

/-- The ADDR/PORT tail of commandRequest.ReadFrom: `make` a buffer of
`size` bytes, io.ReadFull into it (on a short read the buffer keeps its
zero fill past the copied prefix), then the two port bytes.  `consumed`
is the byte count accumulated before the tail. -/
def commandRequest.readTail (c : commandRequest) (size consumed : Nat) (bs : List Byte) :
    commandRequest × Nat × List Byte × Option WireErr :=
  if size ≤ bs.length then
    let c := { c with addr := bs.take size }
    match bs.drop size with
    | hi :: lo :: rest => ({ c with port := hi * 256 + lo }, consumed + size + 2, rest, none)
    | rest => (c, consumed + size, rest, some .eof)
  else ({ c with addr := bs ++ List.replicate (size - bs.length) 0 }, consumed, [], some .eof)

/-- commandRequest.ReadFrom of messages.go, threading the partially decoded
struct exactly as the Go pointer receiver does: each header byte is stored
as soon as it is read; on an unknown address type the reader stops after
the four header bytes with errInvalidAddrType and the addr field is never
assigned. -/
def commandRequest.ReadFrom (c : commandRequest) (bs : List Byte) :
    commandRequest × Nat × List Byte × Option WireErr :=
  match bs with
  | [] => (c, 0, [], some .eof)
  | v :: bs =>
    let c := { c with version := v }
    match bs with
    | [] => (c, 1, [], some .eof)
    | ct :: bs =>
      let c := { c with commandType := ct }
      match bs with
      | [] => (c, 2, [], some .eof)
      | rv :: bs =>
        let c := { c with rsv := rv }
        match bs with
        | [] => (c, 3, [], some .eof)
        | aty :: bs =>
          let c := { c with addressType := aty }
          if aty = ipv4 then c.readTail 4 4 bs
          else if aty = ipv6 then c.readTail 16 4 bs
          else if aty = domainName then
            match bs with
            | [] => (c, 4, [], some .eof)
            | sz :: bs => c.readTail sz 5 bs
          else (c, 4, bs, some .invalidAddrType)

/-- commandRequest.validate of messages.go. -/
def commandRequest.validate (c : commandRequest) : Except ValErr Unit :=
  if c.version ≠ protoVersion then .error .badVersion
  else if c.rsv ≠ 0 then .error .badRsv
  else if ¬(c.addressType = ipv4 ∨ c.addressType = ipv6 ∨ c.addressType = domainName) then
    .error .invalidAddrType
  else if c.addr.length = 0 ∨ (c.addressType = ipv4 ∧ c.addr.length ≠ 4) ∨
      (c.addressType = ipv6 ∧ c.addr.length ≠ 16) then .error .badAddr
  else if c.port = 0 then .error .badPort
  else .ok ()

/-- CommandReply (commandReply in messages.go). -/
structure commandReply where
  rep : Byte := 0
  rsv : Byte := 0
  addressType : Byte := 0
  addr : List Byte := []
  port : Nat := 0
deriving DecidableEq, Repr

/-- commandReply.WriteTo of messages.go.  The four header bytes go out
first; for IPv4/IPv6 the addr length must agree exactly or the writer stops
with errInvalidAddrType; for DomainName the length byte is uint8(len(addr))
— a plain uint8 conversion with no range or emptiness check — followed by
addr[:size]; an unknown address type stops with errInvalidAddrType.
Returns the bytes emitted and the error, mirroring the partial write. -/
def commandReply.WriteTo (r : commandReply) : List Byte × Option WireErr :=
  let hdr := [protoVersion, r.rep, r.rsv, r.addressType]
  if r.addressType = ipv4 then
    if r.addr.length = 4 then (hdr ++ r.addr ++ word16 r.port, none)
    else (hdr, some .invalidAddrType)
  else if r.addressType = ipv6 then
    if r.addr.length = 16 then (hdr ++ r.addr ++ word16 r.port, none)
    else (hdr, some .invalidAddrType)
  else if r.addressType = domainName then
    let size := r.addr.length % 256
    (hdr ++ size :: r.addr.take size ++ word16 r.port, none)
  else (hdr, some .invalidAddrType)

/-- LoginRequest (loginRequest in messages.go). -/
structure loginRequest where
  version : Byte := 0
  username : List Byte := []
  password : List Byte := []
deriving DecidableEq, Repr

/-- loginRequest.ReadFrom of messages.go. -/
def loginRequest.ReadFrom (bs : List Byte) : Except WireErr (loginRequest × List Byte) := do
  let (v, bs) ← readByte bs
  let (usize, bs) ← readByte bs
  let (user, bs) ← readChunk usize bs
  let (psize, bs) ← readByte bs
  let (pass, bs) ← readChunk psize bs
  .ok ({ version := v, username := user, password := pass }, bs)

/-- loginRequest.validate of messages.go. -/
def loginRequest.validate (r : loginRequest) : Except ValErr Unit :=
  if r.version ≠ subnVersion then .error .badSubnVersion
  else if r.username.length = 0 then .error .emptyUsername
  else if r.password.length = 0 then .error .emptyPassword
  else .ok ()

/-- LoginReply (loginReply in messages.go). -/
structure loginReply where
  status : Byte
deriving DecidableEq, Repr

/-- loginReply.WriteTo of messages.go. -/
def loginReply.WriteTo (l : loginReply) : List Byte := [subnVersion, l.status]

/-- GssMessage (gssapiMessage in messages.go). -/
structure gssapiMessage where
  version : Byte := 0
  messageType : Byte := 0
  token : List Byte := []
deriving DecidableEq, Repr

/-- gssapiMessage.WriteTo of messages.go: constant subnegotiation version,
message type, then the token behind a big-endian uint16 length; a token
longer than 2^16 - 1 stops the write after the first two bytes. -/
def gssapiMessage.WriteTo (m : gssapiMessage) : List Byte × Option WireErr :=
  if m.token.length > gssMaxTokenSize then ([subnVersion, m.messageType], some .tooBigToken)
  else ([subnVersion, m.messageType] ++ word16 m.token.length ++ m.token, none)

/-- gssapiMessage.ReadFrom of messages.go. -/
def gssapiMessage.ReadFrom (bs : List Byte) : Except WireErr (gssapiMessage × List Byte) := do
  let (v, bs) ← readByte bs
  let (mt, bs) ← readByte bs
  let (size, bs) ← readU16 bs
  let (tok, bs) ← readChunk size bs
  .ok ({ version := v, messageType := mt, token := tok }, bs)

/-- gssapiMessage.validate of messages.go. -/
def gssapiMessage.validate (m : gssapiMessage) (messageType : Byte) : Except ValErr Unit :=
  if m.version ≠ subnVersion then .error .badSubnVersion
  else if m.token.length > gssMaxTokenSize then .error .tooBigToken
  else if m.messageType ≠ messageType then .error .badMessageType
  else .ok ()

/-- Modelled from the spec: the encoder for MethodRequest (§3,
`Version(1) · NMethods(1) · Methods(NMethods)`); the repository has only
the server-side decoder for this frame. -/
def authRequest.specEncode (a : authRequest) : List Byte :=
  a.version :: a.methods.length % 256 :: a.methods

/-- Modelled from the spec: the decoder for MethodReply (§3,
`Version(1) · SelectedMethod(1)`); the repository has only the server-side
encoder for this frame. -/
def authReply.specDecode (bs : List Byte) : Except WireErr (authReply × List Byte) := do
  let (_, bs) ← readByte bs
  let (m, bs) ← readByte bs
  .ok ({ method := m }, bs)

/-- Modelled from the spec: the encoder for CommandRequest (§3, version,
command, reserved, address type, the address — length-prefixed for a
domain name — and the big-endian port); the repository has only the
server-side decoder for this frame. -/
def commandRequest.specEncode (c : commandRequest) : List Byte :=
  [c.version, c.commandType, c.rsv, c.addressType]
  ++ (if c.addressType = domainName then [c.addr.length % 256] else [])
  ++ c.addr ++ word16 c.port

/-- Modelled from the spec: the decoder for CommandReply (§3, same layout
as CommandRequest with the status in place of the command); the repository
has only the server-side encoder for this frame. -/
def commandReply.specDecode (bs : List Byte) : Except WireErr (commandReply × List Byte) := do
  let (_, bs) ← readByte bs
  let (rep, bs) ← readByte bs
  let (rsv, bs) ← readByte bs
  let (aty, bs) ← readByte bs
  let (addr, bs) ←
    if aty = ipv4 then readChunk 4 bs
    else if aty = ipv6 then readChunk 16 bs
    else if aty = domainName then do
      let (sz, bs) ← readByte bs
      readChunk sz bs
    else .error .invalidAddrType
  let (prt, bs) ← readU16 bs
  .ok ({ rep := rep, rsv := rsv, addressType := aty, addr := addr, port := prt }, bs)

/-- Modelled from the spec: the encoder for LoginRequest (§3,
`SubVersion(1) · ULen(1) · User(ULen) · PLen(1) · Pass(PLen)`); the
repository has only the server-side decoder for this frame. -/
def loginRequest.specEncode (r : loginRequest) : List Byte :=
  r.version :: r.username.length % 256 :: r.username
  ++ r.password.length % 256 :: r.password

/-- Modelled from the spec: the decoder for LoginReply (§3,
`SubVersion(1) · Status(1)`); the repository has only the server-side
encoder for this frame. -/
def loginReply.specDecode (bs : List Byte) : Except WireErr (loginReply × List Byte) := do
  let (_, bs) ← readByte bs
  let (s, bs) ← readByte bs
  .ok ({ status := s }, bs)

/-- Go error values as the engine sees them: the five sentinel errors of
protocol.go, any other error (`other`), and wrapping via fmt.Errorf with
the %w verb (`wrap`). -/
inductive GoErr where
  | errNotAllowed
  | errHostUnreachable
  | errNetworkUnreachable
  | errConnectionRefused
  | errTTLExpired
  | other (code : Nat)
  | wrap (inner : GoErr)
deriving DecidableEq, Repr

/-- errors.Is: the target matches the error itself or anything reachable by
unwrapping. -/
def errorsIs : GoErr → GoErr → Bool
  | .wrap e, t => decide (GoErr.wrap e = t) || errorsIs e t
  | e, t => decide (e = t)

/-- The error-to-status switch of runConnect, in the source's order of
errors.Is tests. -/
def connectStatus (e : GoErr) : Byte :=
  if errorsIs e .errNotAllowed then notAllowed
  else if errorsIs e .errHostUnreachable then hostUnreachable
  else if errorsIs e .errConnectionRefused then connectionRefused
  else if errorsIs e .errNetworkUnreachable then networkUnreachable
  else if errorsIs e .errTTLExpired then ttlExpired
  else sockFailure

/-- A *net.TCPAddr as the engine consumes it: raw IP bytes and a port. -/
structure TCPAddr where
  ip : List Byte
  port : Nat
deriving DecidableEq, Repr

/-- net.IP.To4: a 4-byte address is returned as is; a 16-byte
IPv4-in-IPv6-mapped address is narrowed to its last four bytes; anything
else yields nil. -/
def ipTo4 (ip : List Byte) : Option (List Byte) :=
  if ip.length = 4 then some ip
  else if ip.length = 16 ∧ ip.take 12 = [0, 0, 0, 0, 0, 0, 0, 0, 0, 0, 255, 255] then
    some (ip.drop 12)
  else none

/-- parseAddress of the protocol engine: a non-TCP address is an error;
otherwise IPv4 when To4 applies (with the narrowed bytes), else IPv6 with
the raw bytes. -/
def parseAddress : Option TCPAddr → Except GoErr (Byte × List Byte × Nat)
  | none => .error (.other 0)
  | some a =>
    match ipTo4 a.ip with
    | some ip4 => .ok (ipv4, ip4, a.port)
    | none => .ok (ipv6, a.ip, a.port)

/-- An authentication handler as the engine sees it: only its method code
is consulted by the engine itself (handler behaviour is an oracle of the
run environment). -/
structure AuthHandler where
  method : Byte
deriving DecidableEq, Repr

/-- A client connection object.  `gss` marks the encapsulating wrapper an
auth handler may install around the original stream. -/
inductive Conn where
  | raw (id : Nat)
  | gss (inner : Conn)
deriving DecidableEq, Repr

/-- The kind of reply frame a write site emits. -/
inductive FrameKind where
  | methodReply
  | commandReply
deriving DecidableEq, BEq, Repr

/-- One WriteTo call on the client stream: the frame kind, the bytes that
reached the wire, and whether the frame was written completely. -/
structure OutFrame where
  kind : FrameKind
  bytes : List Byte
  whole : Bool
deriving DecidableEq, Repr

/-- The run environment: the configured auth handler map and the outcomes
of the host-side effects (authentication, the connect callback's local
address, the BIND listener's address and the accepted peer's address).
An `Option TCPAddr` of `none` stands for a non-TCP address. -/
structure Env where
  authMap : Byte → Option AuthHandler
  authOutcome : Except GoErr Conn
  hasListen : Bool
  connectResult : Except GoErr (Option TCPAddr)
  listenResult : Except GoErr (Option TCPAddr)
  acceptResult : Except GoErr (Option TCPAddr)

/-- The per-connection state of the protocol engine (struct state of the
source), plus the instrumented list of frames written to the client. -/
structure EngineState where
  input : List Byte
  conn : Conn
  out : List OutFrame := []
  methods : List Byte := []
  method : Option AuthHandler := none
  command : commandRequest := {}
  status : Byte := 0

/-- Append one frame write to the client stream. -/
def emitFrame (st : EngineState) (k : FrameKind) (bw : List Byte × Option WireErr) :
    EngineState :=
  { st with out := st.out ++ [⟨k, bw.1, bw.2.isNone⟩] }

/-- The transition labels of the engine's state machine (the source
returns the transition functions themselves; the labels drive the same
steps through a small loop). -/
inductive Tag where
  | initial
  | failAuth
  | authenticate
  | getCommand
  | runConnect
  | runBind
  | runUDPAssoc
  | defaultBind
  | failCommand
deriving DecidableEq, Repr

/-- The method-selection loop of initial: walk the client's offered codes
in order and take the first one present in the auth map. -/
def chooseMethod (authMap : Byte → Option AuthHandler) : List Byte → Option AuthHandler
  | [] => none
  | code :: rest =>
    match authMap code with
    | some h => some h
    | none => chooseMethod authMap rest

/-- The initial transition: read and validate the MethodRequest, store the
offered methods, then either go to authenticate with the first configured
handler or to failAuth. -/
def stepInitial (env : Env) (st : EngineState) : Option Tag × EngineState :=
  match authRequest.ReadFrom st.input with
  | .error _ => (none, st)
  | .ok (msg, rest) =>
    match msg.validate with
    | .error _ => (none, { st with input := rest })
    | .ok _ =>
      let st := { st with input := rest, methods := msg.methods }
      match chooseMethod env.authMap msg.methods with
      | some h => (some .authenticate, { st with method := some h })
      | none => (some .failAuth, st)

/-- The failAuth transition: write the 0x05 0xFF MethodReply and stop. -/
def stepFailAuth (st : EngineState) : Option Tag × EngineState :=
  (none, emitFrame st .methodReply (authReply.WriteTo { method := typeError }, none))

/-- The authenticate transition: announce the chosen method, run the
handler, and install the (possibly new) connection only on success. -/
def stepAuthenticate (env : Env) (st : EngineState) : Option Tag × EngineState :=
  let st := emitFrame st .methodReply
    (authReply.WriteTo { method := (st.method.map AuthHandler.method).getD 0 }, none)
  match env.authOutcome with
  | .error _ => (none, st)
  | .ok c => (some .getCommand, { st with conn := c })

/-- The getCommand transition: read and validate the CommandRequest, store
it, and dispatch on the command type. -/
def stepGetCommand (st : EngineState) : Option Tag × EngineState :=
  let r := commandRequest.ReadFrom {} st.input
  match r.2.2.2 with
  | some _ => (none, { st with input := r.2.2.1 })
  | none =>
    let msg := r.1
    match msg.validate with
    | .error _ => (none, { st with input := r.2.2.1 })
    | .ok _ =>
      let st := { st with input := r.2.2.1, command := msg }
      if msg.commandType = cmdConnect then (some .runConnect, st)
      else if msg.commandType = cmdBind then (some .runBind, st)
      else if msg.commandType = cmdUdpAssoc then (some .runUDPAssoc, st)
      else (some .failCommand, { st with status := notSupported })

/-- The runBind transition: without a configured listen callback, fail the
command with NotAllowedByRuleset. -/
def stepRunBind (env : Env) (st : EngineState) : Option Tag × EngineState :=
  if env.hasListen then (some .defaultBind, st)
  else (some .failCommand, { st with status := notAllowed })

/-- The runUDPAssoc transition: UDP ASSOCIATE is not supported. -/
def stepRunUDPAssoc (st : EngineState) : Option Tag × EngineState :=
  (some .failCommand, { st with status := notSupported })

/-- The runConnect transition: on a connect-callback error map the error to
a reply status and fail the command; on success report the local address of
the outgoing socket in a Succeeded reply and relay. -/
def stepRunConnect (env : Env) (st : EngineState) : Option Tag × EngineState :=
  match env.connectResult with
  | .error e => (some .failCommand, { st with status := connectStatus e })
  | .ok localAddr =>
    match parseAddress localAddr with
    | .error _ => (none, st)
    | .ok (aty, ip, prt) =>
      let reply : commandReply :=
        { rep := succeeded, rsv := 0, addressType := aty, addr := ip, port := prt % 65536 }
      (none, emitFrame st .commandReply reply.WriteTo)

/-- The defaultBind transition: obtain a listener, send the first Succeeded
reply with its address, accept one peer, send the second Succeeded reply
with the peer's address, and relay; every host-side failure after the first
reply still routes through failCommand. -/
def stepDefaultBind (env : Env) (st : EngineState) : Option Tag × EngineState :=
  match env.listenResult with
  | .error _ => (some .failCommand, { st with status := sockFailure })
  | .ok lsAddr =>
    match parseAddress lsAddr with
    | .error _ => (some .failCommand, { st with status := sockFailure })
    | .ok (aty, ip, prt) =>
      let reply1 : commandReply :=
        { rep := succeeded, rsv := 0, addressType := aty, addr := ip, port := prt % 65536 }
      let w1 := reply1.WriteTo
      let st := emitFrame st .commandReply w1
      match w1.2 with
      | some _ => (none, st)
      | none =>
        match env.acceptResult with
        | .error _ => (some .failCommand, { st with status := sockFailure })
        | .ok remoteAddr =>
          match parseAddress remoteAddr with
          | .error _ => (some .failCommand, { st with status := sockFailure })
          | .ok (aty2, ip2, prt2) =>
            let reply2 : commandReply :=
              { rep := succeeded, rsv := 0, addressType := aty2, addr := ip2,
                port := prt2 % 65536 }
            (none, emitFrame st .commandReply reply2.WriteTo)

/-- The failCommand transition: echo the client's command fields in a reply
carrying the failure status, then stop. -/
def stepFailCommand (st : EngineState) : Option Tag × EngineState :=
  let reply : commandReply :=
    { rep := st.status, rsv := 0, addressType := st.command.addressType,
      addr := st.command.addr, port := st.command.port }
  (none, emitFrame st .commandReply reply.WriteTo)

/-- One transition of the engine. -/
def step (env : Env) : Tag → EngineState → Option Tag × EngineState
  | .initial, st => stepInitial env st
  | .failAuth, st => stepFailAuth st
  | .authenticate, st => stepAuthenticate env st
  | .getCommand, st => stepGetCommand st
  | .runConnect, st => stepRunConnect env st
  | .runBind, st => stepRunBind env st
  | .runUDPAssoc, st => stepRunUDPAssoc st
  | .defaultBind, st => stepDefaultBind env st
  | .failCommand, st => stepFailCommand st

/-- Drive the engine until a transition returns no successor (the Handle
loop of server.go), bounded by fuel. -/
def runFrom (env : Env) : Nat → Tag → EngineState → EngineState
  | 0, _, st => st
  | fuel + 1, tag, st =>
    match step env tag st with
    | (none, st') => st'
    | (some t', st') => runFrom env fuel t' st'

/-- A whole engine run on a fresh connection. -/
def runEngine (env : Env) (input : List Byte) (fuel : Nat) : EngineState :=
  runFrom env fuel .initial { input := input, conn := .raw 0 }

/-- Number of MethodReply frames among the writes. -/
def mrCount (out : List OutFrame) : Nat :=
  out.countP fun f => f.kind == FrameKind.methodReply

/-- Number of CommandReply frames among the writes. -/
def crCount (out : List OutFrame) : Nat :=
  out.countP fun f => f.kind == FrameKind.commandReply

/-- The flat byte stream the client observes. -/
def outBytes (out : List OutFrame) : List Byte := (out.map OutFrame.bytes).flatten

/-- Every frame reached the wire completely. -/
def allWhole (out : List OutFrame) : Prop := ∀ f ∈ out, f.whole = true

/-- The GSSAPI host interface of server.go, with each operation's outcome
modelled as a function. -/
structure GSSAPIModel where
  acceptContext : List Byte → Except GoErr (Bool × List Byte)
  acceptProtectionLevel : Byte → Except GoErr Byte
  encode : List Byte → Except GoErr (List Byte)
  decode : List Byte → Except GoErr (List Byte)

/-- The mutable pieces of a gssConn: the unread suffix of the raw stream
and the contents of the internal spill buffer. -/
structure GssState where
  raw : List Byte
  buffer : List Byte
deriving DecidableEq, Repr

/-- The body of gssConn.Read (conn.go) acting on the receiver it was
given: serve from the spill buffer if non-empty, otherwise read one
Encapsulation GssMessage from the raw stream, validate it, decode its
token, hand the caller the first min(len(p), len(payload)) bytes and put
the tail into the spill buffer. -/
def gssConnReadCall (api : GSSAPIModel) (g : GssState) (plen : Nat) :
    Except Unit (List Byte) × GssState :=
  if g.buffer.length > 0 then
    (.ok (g.buffer.take plen), { g with buffer := g.buffer.drop plen })
  else
    match gssapiMessage.ReadFrom g.raw with
    | .error _ => (.error (), g)
    | .ok (msg, rest) =>
      let g := { g with raw := rest }
      match msg.validate gssEncapsulation with
      | .error _ => (.error (), g)
      | .ok _ =>
        match api.decode msg.token with
        | .error _ => (.error (), g)
        | .ok payload =>
          let n := min plen payload.length
          if n < payload.length then
            (.ok (payload.take n), { g with buffer := payload.drop n })
          else (.ok payload, g)

/-- One gssConn.Read call as Go actually executes it through the stored
io.ReadWriteCloser value: the method has a value receiver, so it runs on a
copy of the connection object — the raw stream, a shared reference,
advances, but the copy's buffer mutation is discarded and the stored
object's buffer is unchanged after the call. -/
def gssConnReadGo (api : GSSAPIModel) (g : GssState) (plen : Nat) :
    Except Unit (List Byte) × GssState :=
  let r := gssConnReadCall api g plen
  (r.1, { raw := r.2.raw, buffer := g.buffer })

/-- The distinguishable failure modes of an auth handler. -/
inductive AuthFailure where
  | ioErr (e : WireErr)
  | valErr (e : ValErr)
  | verifyErr (e : GoErr)
  | gssErr (e : GoErr)
  | protocolErr
  | outOfFuel
deriving DecidableEq, Repr

/-- noAuth.auth of auth.go: returns the connection unchanged and never
fails. -/
def noAuthAuth (conn : Conn) : Conn × Option AuthFailure := (conn, none)

/-- usernameAuth.auth of auth.go: read and validate a LoginRequest, call
the credential predicate, write a LoginReply whose status reflects the
predicate's outcome, and return the predicate's error (the connection is
returned unchanged on every path).  The result is the returned connection,
the bytes written to the client, and the returned error. -/
def usernameAuthAuth (verify : List Byte → List Byte → Option GoErr) (conn : Conn)
    (input : List Byte) : Conn × List Byte × Option AuthFailure :=
  match loginRequest.ReadFrom input with
  | .error e => (conn, [], some (.ioErr e))
  | .ok (req, _) =>
    match req.validate with
    | .error e => (conn, [], some (.valErr e))
    | .ok _ =>
      match verify req.username req.password with
      | none => (conn, loginReply.WriteTo { status := success }, none)
      | some e => (conn, loginReply.WriteTo { status := denied }, some (.verifyErr e))

/-- The context-establishment loop of gssapiAuth.authenticate: read an
Authentication GssMessage, validate, call AcceptContext; on its error
write the 0x01 0xFF refuse marker and stop with the error; otherwise reply
with the produced token and loop until complete or the token is empty.
Returns the unread input, the bytes written, and the error if any.  The
fuel only bounds the loop; each iteration consumes input, so fuel
exceeding the input length is never exhausted first. -/
def gssAuthLoop (api : GSSAPIModel) :
    Nat → List Byte → List Byte → List Byte × List Byte × Option AuthFailure
  | 0, input, written => (input, written, some .outOfFuel)
  | fuel + 1, input, written =>
    match gssapiMessage.ReadFrom input with
    | .error e => (input, written, some (.ioErr e))
    | .ok (msg, rest) =>
      match msg.validate gssAuthentication with
      | .error e => (rest, written, some (.valErr e))
      | .ok _ =>
        match api.acceptContext msg.token with
        | .error e => (rest, written ++ [1, 0xff], some (.gssErr e))
        | .ok (complete, token) =>
          let w := gssapiMessage.WriteTo { msg with token := token }
          match w.2 with
          | some e => (rest, written ++ w.1, some (.ioErr e))
          | none =>
            let written := written ++ w.1
            if complete || token.length = 0 then (rest, written, none)
            else gssAuthLoop api fuel rest written

/-- gssapiAuth.applyProtection of auth.go: read a ProtectionNegotiation
GssMessage, decode its token to exactly one level byte, agree a level,
encode it and reply. -/
def gssApplyProtection (api : GSSAPIModel) (input : List Byte) :
    List Byte × List Byte × Option AuthFailure :=
  match gssapiMessage.ReadFrom input with
  | .error e => (input, [], some (.ioErr e))
  | .ok (msg, rest) =>
    match msg.validate gssProtection with
    | .error e => (rest, [], some (.valErr e))
    | .ok _ =>
      match api.decode msg.token with
      | .error e => (rest, [], some (.gssErr e))
      | .ok data =>
        if data.length ≠ 1 then (rest, [], some .protocolErr)
        else
          match api.acceptProtectionLevel (data.headD 0) with
          | .error e => (rest, [], some (.gssErr e))
          | .ok lvl =>
            match api.encode [lvl] with
            | .error e => (rest, [], some (.gssErr e))
            | .ok token =>
              let w := gssapiMessage.WriteTo { msg with token := token }
              match w.2 with
              | some e => (rest, w.1, some (.ioErr e))
              | none => (rest, w.1, none)

/-- gssapiAuth.auth of auth.go: obtain the per-connection GSSAPI object
from the factory, run the two subnegotiation stages, and only on success
return the encapsulating gssConn wrapper; every failure path returns the
original connection. -/
def gssapiAuthAuth (factory : Except GoErr GSSAPIModel) (conn : Conn) (input : List Byte) :
    Conn × Option AuthFailure :=
  match factory with
  | .error e => (conn, some (.gssErr e))
  | .ok api =>
    match gssAuthLoop api (input.length + 1) input [] with
    | (_, _, some e) => (conn, some e)
    | (rest, _, none) =>
      match gssApplyProtection api rest with
      | (_, _, some e) => (conn, some e)
      | (_, _, none) => (.gss conn, none)

/-- The three handler implementations registered by New. -/
inductive HandlerKind where
  | noAuthH
  | usernameH
  | gssapiH
deriving DecidableEq, Repr

/-- The method() of each handler implementation (auth.go). -/
def HandlerKind.methodCode : HandlerKind → Byte
  | .noAuthH => typeNoAuth
  | .usernameH => typeLogin
  | .gssapiH => typeGSSAPI

/-- The configuration switches of Options that decide which auth handlers
New registers (presence of the optional callbacks). -/
structure Options where
  allowNoAuth : Bool
  hasAuthenticate : Bool
  hasGSSAPI : Bool
deriving DecidableEq, Repr

/-- Go map assignment m[k] = v on an association list. -/
def mapInsert (m : List (Byte × HandlerKind)) (k : Byte) (v : HandlerKind) :
    List (Byte × HandlerKind) :=
  if (m.lookup k).isSome then m.map fun p => if p.1 = k then (k, v) else p
  else m ++ [(k, v)]

/-- The authMethods map construction of New (server.go): noAuth under
typeNoAuth when AllowNoAuth, usernameAuth under typeLogin when
Authenticate is set, and — as the source writes it — gssapiAuth also under
typeLogin when GSSAPI is set. -/
def buildAuthMethods (opts : Options) : List (Byte × HandlerKind) :=
  let m : List (Byte × HandlerKind) := []
  let m := if opts.allowNoAuth then mapInsert m typeNoAuth .noAuthH else m
  let m := if opts.hasAuthenticate then mapInsert m typeLogin .usernameH else m
  if opts.hasGSSAPI then mapInsert m typeLogin .gssapiH else m

/-- New of server.go reduced to its auth-method registration: a
configuration error exactly when the map ends up empty. -/
def New (opts : Options) : Except Unit (List (Byte × HandlerKind)) :=
  let m := buildAuthMethods opts
  if m.length = 0 then .error () else .ok m

/-- A GSSAPI object whose Decode and Encode are the identity, used for
concrete runs of the encapsulated stream. -/
def gssIdModel : GSSAPIModel where
  acceptContext := fun _ => .error (.other 0)
  acceptProtectionLevel := fun b => .ok b
  encode := fun d => .ok d
  decode := fun d => .ok d

/-- A raw stream carrying two Encapsulation GssMessages, with payloads
[10, 11, 12] and [13]. -/
def gssRawDemo : List Byte :=
  (gssapiMessage.WriteTo { version := 1, messageType := 3, token := [10, 11, 12] }).1
  ++ (gssapiMessage.WriteTo { version := 1, messageType := 3, token := [13] }).1

/- ### Theorems -/

/-- C5: the claim says commandReply.WriteTo refuses every reply whose addr
length disagrees with its address type, including a DomainName reply with
an empty addr.  Evaluating the source's WriteTo refutes this: the empty
DomainName reply is emitted successfully (with a zero length byte), and a
256-byte DomainName addr is silently truncated by the uint8 length
conversion and also emitted without error — the very input the repo's own
Test_commandReply_WriteTo expects to fail.  Only the IPv4/IPv6 mismatches
and unknown address types are refused. -/
theorem c5_domain_reply_not_refused :
    commandReply.WriteTo
        { rep := 0, rsv := 0, addressType := domainName, addr := [], port := 80 }
      = ([5, 0, 0, 3, 0, 0, 80], none) ∧
    commandReply.WriteTo
        { rep := 0, rsv := 0, addressType := domainName,
          addr := List.replicate 256 97, port := 80 }
      = ([5, 0, 0, 3, 0, 0, 80], none) ∧
    commandReply.WriteTo
        { rep := 0, rsv := 0, addressType := ipv4, addr := [1, 2, 3], port := 80 }
      = ([5, 0, 0, 1], some .invalidAddrType) := by
  refine ⟨by decide, by decide, by decide⟩

/-- C7: the claim says a payload tail beyond the caller's buffer is kept in
the spill buffer and drained by subsequent Reads before any further frame.
The Read body does put the tail into the buffer, but gssConn's methods have
value receivers, so the call mutates a copy and the stored connection's
buffer never changes: with a 3-byte payload and a 2-byte caller buffer the
first Read returns the first two bytes, the call-local spill holds the
third, yet the second Read consumes the next frame and returns its payload
— the spilled byte is lost instead of being delivered. -/
theorem c7_spill_dropped_between_reads :
    (gssConnReadGo gssIdModel { raw := gssRawDemo, buffer := [] } 2).1 = .ok [10, 11] ∧
    (gssConnReadCall gssIdModel { raw := gssRawDemo, buffer := [] } 2).2.buffer = [12] ∧
    (gssConnReadGo gssIdModel { raw := gssRawDemo, buffer := [] } 2).2.buffer = [] ∧
    (gssConnReadGo gssIdModel
        (gssConnReadGo gssIdModel { raw := gssRawDemo, buffer := [] } 2).2 2).1
      = .ok [13] ∧
    (Except.ok [13] : Except Unit (List Byte)) ≠ .ok [12] := by
  refine ⟨by decide, by decide, by decide, by decide, by decide⟩

/-- C8: the configuration-error condition holds (New fails exactly when no
auth option is enabled), but the claim's registration property fails:
setting only the GSSAPI factory registers the gssapiAuth handler under
typeLogin (0x02), so no handler exists under typeGSSAPI (0x01) even though
the handler's own method() is typeGSSAPI, and setting both Authenticate and
GSSAPI silently overwrites the username handler. -/
theorem c8_gssapi_registered_under_login :
    (∀ opts : Options, New opts = .error () ↔
        (opts.allowNoAuth = false ∧ opts.hasAuthenticate = false ∧
         opts.hasGSSAPI = false)) ∧
    New { allowNoAuth := false, hasAuthenticate := false, hasGSSAPI := true }
      = .ok [(typeLogin, .gssapiH)] ∧
    ([(typeLogin, HandlerKind.gssapiH)].lookup typeGSSAPI = none) ∧
    HandlerKind.gssapiH.methodCode = typeGSSAPI ∧
    typeGSSAPI ≠ typeLogin ∧
    New { allowNoAuth := false, hasAuthenticate := true, hasGSSAPI := true }
      = .ok [(typeLogin, .gssapiH)] := by
  refine ⟨?_, by decide, by decide, by decide, by decide, by decide⟩
  intro opts
  rcases opts with ⟨a, b, c⟩
  cases a <;> cases b <;> cases c <;> decide

/-- The ADDR/PORT tail reader can only fail with a short read. -/
lemma readTail_err_eof (c : commandRequest) (size consumed : Nat) (bs : List Byte) (e : WireErr)
    (h : (commandRequest.readTail c size consumed bs).2.2.2 = some e) : e = .eof := by
  unfold commandRequest.readTail at h
  split at h
  · split at h <;> simp_all
  · simp_all

/-- C6: on an input whose fourth octet is not one of the three address-type
codes, commandRequest.ReadFrom stops right after the four header bytes with
errInvalidAddrType, storing the header fields but never touching the addr
field; and errInvalidAddrType is the only non-I/O error any ReadFrom
execution can produce. -/
theorem c6_invalid_atype_stops_after_header
    (c0 : commandRequest) (b0 b1 b2 b3 : Byte) (rest : List Byte)
    (h1 : b3 ≠ ipv4) (h3 : b3 ≠ domainName) (h4 : b3 ≠ ipv6) :
    commandRequest.ReadFrom c0 (b0 :: b1 :: b2 :: b3 :: rest)
      = ({ c0 with version := b0, commandType := b1, rsv := b2, addressType := b3 },
         4, rest, some .invalidAddrType) ∧
    ({ c0 with version := b0, commandType := b1, rsv := b2, addressType := b3 } :
        commandRequest).addr = c0.addr ∧
    (∀ (c : commandRequest) (bs : List Byte) (e : WireErr),
        (commandRequest.ReadFrom c bs).2.2.2 = some e →
        e = .eof ∨ e = .invalidAddrType) := by
  refine ⟨?_, rfl, ?_⟩
  · simp only [commandRequest.ReadFrom, ipv4, domainName, ipv6] at h1 h3 h4 ⊢
    rw [if_neg h1, if_neg h4, if_neg h3]
  · intro c bs e h
    unfold commandRequest.ReadFrom at h
    rcases bs with _ | ⟨v, bs⟩
    · simp_all
    rcases bs with _ | ⟨ct, bs⟩
    · simp_all
    rcases bs with _ | ⟨rv, bs⟩
    · simp_all
    rcases bs with _ | ⟨aty, bs⟩
    · simp_all
    simp only at h
    split_ifs at h with hA hB hC
    · exact Or.inl (readTail_err_eof _ _ _ _ _ h)
    · exact Or.inl (readTail_err_eof _ _ _ _ _ h)
    · rcases bs with _ | ⟨sz, bs⟩
      · simp_all
      · exact Or.inl (readTail_err_eof _ _ _ _ _ h)
    · simp_all

/-- Witness for C6 at a concrete input: version 5, CONNECT, reserved 0,
address type 0x22. -/
theorem c6_witness :
    commandRequest.ReadFrom {} [5, 1, 0, 34, 9, 9]
      = ({ version := 5, commandType := 1, rsv := 0, addressType := 34 },
         4, [9, 9], some .invalidAddrType) :=
  (c6_invalid_atype_stops_after_header {} 5 1 0 34 [9, 9]
    (by decide) (by decide) (by decide)).1

/-- Unwrapping is transparent to the status mapping (errors.Is looks
through fmt.Errorf %w wrapping). -/
lemma connectStatus_wrap (e : GoErr) : connectStatus (.wrap e) = connectStatus e := by
  simp [connectStatus, errorsIs]

/-- Any error that does not match one of the five sentinels maps to
GeneralFailure. -/
lemma connectStatus_other (k : Nat) : connectStatus (.other k) = sockFailure := by
  simp [connectStatus, errorsIs]

/-- The CommandReply failCommand builds by echoing a command's fields. -/
def echoReply (rep : Byte) (c : commandRequest) : commandReply :=
  { rep := rep, rsv := 0, addressType := c.addressType, addr := c.addr, port := c.port }

/-- A reply echoing a validated command is always written completely, and
its second wire byte is the reply status. -/
lemma writeTo_whole_of_validate (c : commandRequest) (h : c.validate = .ok ()) (rep : Byte) :
    (echoReply rep c).WriteTo.2 = none ∧
    (echoReply rep c).WriteTo.1.get? 1 = some rep := by
  unfold commandRequest.validate at h
  split_ifs at h with h1 h2 h3 h4 h5
  push_neg at h3 h4
  rcases h3 with hA | hA | hA
  · have hlen : c.addr.length = 4 := h4.2.1 hA
    simp [echoReply, commandReply.WriteTo, hA, hlen, ipv4]
  · have hlen : c.addr.length = 16 := h4.2.2 hA
    simp [echoReply, commandReply.WriteTo, hA, hlen, ipv4, ipv6]
  · simp [echoReply, commandReply.WriteTo, hA, ipv4, ipv6, domainName]

/-- C1: when the connect callback fails during CONNECT, runConnect routes
to failCommand with the status produced by the errors.Is switch, and the
CommandReply written to the client carries exactly that status; the
mapping sends NotAllowed to NotAllowedByRuleset, HostUnreachable to
HostUnreachable, NetworkUnreachable to NetworkUnreachable,
ConnectionRefused to ConnectionRefused, TTLExpired to TTLExpired, every
other error to GeneralFailure, and is invariant under error wrapping. -/
theorem c1_connect_error_reply_mapping (env : Env) (st : EngineState) (e : GoErr)
    (hc : env.connectResult = .error e) (hv : st.command.validate = .ok ()) :
    (step env .runConnect st).1 = some .failCommand ∧
    (step env .runConnect st).2.status = connectStatus e ∧
    (step env .runConnect st).2.out = st.out ∧
    (∃ bs, (step env .failCommand (step env .runConnect st).2).2.out
        = st.out ++ [⟨.commandReply, bs, true⟩] ∧ bs.get? 1 = some (connectStatus e)) ∧
    (step env .failCommand (step env .runConnect st).2).1 = none ∧
    connectStatus .errNotAllowed = notAllowed ∧
    connectStatus .errHostUnreachable = hostUnreachable ∧
    connectStatus .errNetworkUnreachable = networkUnreachable ∧
    connectStatus .errConnectionRefused = connectionRefused ∧
    connectStatus .errTTLExpired = ttlExpired ∧
    (∀ k, connectStatus (.other k) = sockFailure) ∧
    (∀ e2, connectStatus (.wrap e2) = connectStatus e2) := by
  have hrc : step env .runConnect st = (some .failCommand, { st with status := connectStatus e }) := by
    simp [step, stepRunConnect, hc]
  have hw := writeTo_whole_of_validate st.command hv (connectStatus e)
  refine ⟨by rw [hrc], by rw [hrc], by rw [hrc], ?_, by rw [hrc]; simp [step, stepFailCommand],
    by decide, by decide, by decide, by decide, by decide,
    connectStatus_other, connectStatus_wrap⟩
  rw [hrc]
  refine ⟨(echoReply (connectStatus e) st.command).WriteTo.1, ?_, hw.2⟩
  simpa [step, stepFailCommand, emitFrame, echoReply] using
    congrArg Option.isNone hw.1

/-- A fully specified environment used in concrete runs: CONNECT fails with
a wrapped TTL-expired error. -/
def envTTL : Env where
  authMap := fun _ => none
  authOutcome := .error (.other 0)
  hasListen := false
  connectResult := .error (.wrap .errTTLExpired)
  listenResult := .error (.other 0)
  acceptResult := .error (.other 0)

/-- A state holding a validated CONNECT command to 1.2.3.4:80. -/
def stTTL : EngineState where
  input := []
  conn := .raw 0
  command := { version := 5, commandType := 1, rsv := 0, addressType := 1,
               addr := [1, 2, 3, 4], port := 80 }
  status := 0

/-- Witness for C1: a wrapped TTL-expired connect error yields status 6 in
the engine state handed to failCommand. -/
theorem c1_witness :
    (step envTTL .runConnect stTTL).2.status = connectStatus (.wrap .errTTLExpired) ∧
    connectStatus (.wrap .errTTLExpired) = ttlExpired :=
  ⟨(c1_connect_error_reply_mapping envTTL stTTL (.wrap .errTTLExpired) rfl (by decide)).2.1,
   by decide⟩

@[simp]
lemma except_bind_ok {ε α β : Type} (x : α) (f : α → Except ε β) :
    (Except.ok x : Except ε α) >>= f = f x := rfl

@[simp]
lemma except_bind_err {ε α β : Type} (e : ε) (f : α → Except ε β) :
    (Except.error e : Except ε α) >>= f = .error e := rfl

/-- Reading exactly the length of a prefix returns that prefix. -/
lemma readChunk_exact (xs rest : List Byte) :
    readChunk xs.length (xs ++ rest) = .ok (xs, rest) := by
  simp [readChunk, List.take_left, List.drop_left]

/-- C9: on a well-formed LoginRequest the username/password handler calls
the credential predicate, writes a LoginReply whose status is Success
exactly when the predicate succeeded and Failure otherwise — the reply is
written in both cases — returns the original connection, and returns a
non-nil error exactly when the predicate failed; and an auth-handler error
makes the engine terminate the connection (no further transition). -/
theorem c9_userpass_reply_and_error (verify : List Byte → List Byte → Option GoErr)
    (conn : Conn) (user pass rest : List Byte)
    (hu : user.length ≠ 0) (hp : pass.length ≠ 0)
    (_hu2 : user.length ≤ 255) (_hp2 : pass.length ≤ 255) :
    (usernameAuthAuth verify conn
        (subnVersion :: user.length :: (user ++ pass.length :: (pass ++ rest)))).2.1
      = [subnVersion, if verify user pass = none then success else denied] ∧
    ((usernameAuthAuth verify conn
        (subnVersion :: user.length :: (user ++ pass.length :: (pass ++ rest)))).2.2 = none
      ↔ verify user pass = none) ∧
    (usernameAuthAuth verify conn
        (subnVersion :: user.length :: (user ++ pass.length :: (pass ++ rest)))).1 = conn ∧
    (∀ (env : Env) (st : EngineState) (e : GoErr), env.authOutcome = .error e →
        (step env .authenticate st).1 = none) := by
  have hread : loginRequest.ReadFrom
      (subnVersion :: user.length :: (user ++ pass.length :: (pass ++ rest)))
      = .ok ({ version := subnVersion, username := user, password := pass }, rest) := by
    simp [loginRequest.ReadFrom, readByte, readChunk_exact]
  have hval : loginRequest.validate
      { version := subnVersion, username := user, password := pass } = .ok () := by
    simp [loginRequest.validate, hu, hp]
  have hmain : usernameAuthAuth verify conn
      (subnVersion :: user.length :: (user ++ pass.length :: (pass ++ rest)))
      = (conn, [subnVersion, if verify user pass = none then success else denied],
         (verify user pass).map AuthFailure.verifyErr) := by
    unfold usernameAuthAuth
    rw [hread]
    simp only [hval]
    cases hver : verify user pass <;>
      simp [hver, loginReply.WriteTo]
  refine ⟨by rw [hmain], ?_, by rw [hmain], ?_⟩
  · rw [hmain]
    cases hver : verify user pass <;> simp
  · intro env st e he
    simp [step, stepAuthenticate, he]

/-- Witness for C9: an accepting predicate on the 1-byte credentials "a"
and "b" yields the Success reply and no error. -/
theorem c9_witness :
    (usernameAuthAuth (fun _ _ => none) (.raw 0)
        (subnVersion :: [97].length :: ([97] ++ [98].length :: ([98] ++ [])))).2.1
      = [subnVersion, success] :=
  (c9_userpass_reply_and_error (fun _ _ => none) (.raw 0) [97] [98] []
    (by decide) (by decide) (by decide) (by decide)).1

/-- Every outcome of gssapiAuth.auth either keeps the original connection
or is the successful installation of the gssConn wrapper. -/
lemma gssapiAuthAuth_cases (f : Except GoErr GSSAPIModel) (c : Conn) (i : List Byte) :
    (gssapiAuthAuth f c i).1 = c ∨ gssapiAuthAuth f c i = (.gss c, none) := by
  unfold gssapiAuthAuth
  split
  · exact Or.inl rfl
  · split
    · exact Or.inl rfl
    · split
      · exact Or.inl rfl
      · exact Or.inr rfl

/-- C10: every auth handler returns the original connection whenever it
returns an error (the username handler returns it on every path, the
no-auth handler always succeeds with it, the GSS-API handler replaces it
only on success), and on a failed authentication the engine keeps its
stream field unchanged and terminates. -/
theorem c10_failed_auth_keeps_stream :
    (∀ conn, noAuthAuth conn = (conn, none)) ∧
    (∀ (verify : List Byte → List Byte → Option GoErr) (conn : Conn) (input : List Byte),
        (usernameAuthAuth verify conn input).1 = conn) ∧
    (∀ (factory : Except GoErr GSSAPIModel) (conn : Conn) (input : List Byte)
        (e : AuthFailure), (gssapiAuthAuth factory conn input).2 = some e →
        (gssapiAuthAuth factory conn input).1 = conn) ∧
    (∀ (env : Env) (st : EngineState) (e : GoErr), env.authOutcome = .error e →
        (step env .authenticate st).1 = none ∧
        (step env .authenticate st).2.conn = st.conn) := by
  refine ⟨fun _ => rfl, ?_, ?_, ?_⟩
  · intro verify conn input
    unfold usernameAuthAuth
    split
    · rfl
    · split
      · rfl
      · split <;> rfl
  · intro factory conn input e h
    rcases gssapiAuthAuth_cases factory conn input with hk | hk
    · exact hk
    · rw [hk] at h
      simp at h
  · intro env st e he
    constructor <;> simp [step, stepAuthenticate, he, emitFrame]

/-- Witness for C10: the no-auth handler keeps the connection, and a
failing GSSAPI factory keeps the connection. -/
theorem c10_witness :
    noAuthAuth (.raw 0) = (.raw 0, none) ∧
    (gssapiAuthAuth (.error (.other 0)) (.raw 0) []).1 = .raw 0 :=
  ⟨c10_failed_auth_keeps_stream.1 (.raw 0),
   c10_failed_auth_keeps_stream.2.2.1 (.error (.other 0)) (.raw 0) []
     (.gssErr (.other 0)) (by decide)⟩

/-- Decoding the big-endian encoding of a uint16 value returns it. -/
lemma word16_readU16 (p : Nat) (hp : p < 65536) (rest : List Byte) :
    readU16 (word16 p ++ rest) = .ok (p, rest) := by
  simp only [word16, List.cons_append, List.nil_append, readU16]
  have : p / 256 % 256 * 256 + p % 256 = p := by omega
  rw [this]

/-- Reading an address of known length followed by a port consumes exactly
those bytes. -/
lemma readTail_exact (c : commandRequest) (size consumed : Nat) (addr rest : List Byte)
    (p : Nat) (hsz : size = addr.length) (hp : p < 65536) :
    commandRequest.readTail c size consumed (addr ++ (word16 p ++ rest))
      = ({ c with addr := addr, port := p }, consumed + size + 2, rest, none) := by
  subst hsz
  unfold commandRequest.readTail
  rw [if_pos (by simp)]
  rw [List.take_left, List.drop_left]
  simp only [word16, List.cons_append, List.nil_append]
  have : p / 256 % 256 * 256 + p % 256 = p := by omega
  rw [this]

/-- Round trip of the MethodRequest codec. -/
lemma authRequest_roundtrip (a : authRequest) (rest : List Byte)
    (h : a.methods.length ≤ 255) :
    authRequest.ReadFrom (a.specEncode ++ rest) = .ok (a, rest) := by
  have hm : a.methods.length % 256 = a.methods.length := Nat.mod_eq_of_lt (by omega)
  simp [authRequest.specEncode, authRequest.ReadFrom, readByte, hm, readChunk_exact]

/-- Round trip of the MethodReply codec. -/
lemma authReply_roundtrip (r : authReply) (rest : List Byte) :
    authReply.specDecode (r.WriteTo ++ rest) = .ok (r, rest) := by
  simp [authReply.WriteTo, authReply.specDecode, readByte]

/-- Round trip of the CommandRequest codec under the §3 address rules. -/
lemma commandRequest_roundtrip (c : commandRequest) (rest : List Byte)
    (ha : (c.addressType = ipv4 ∧ c.addr.length = 4) ∨
          (c.addressType = ipv6 ∧ c.addr.length = 16) ∨
          (c.addressType = domainName ∧ c.addr.length ≤ 255))
    (hp : c.port < 65536) :
    commandRequest.ReadFrom {} (c.specEncode ++ rest)
      = (c, 4 + (if c.addressType = domainName then 1 else 0) + c.addr.length + 2,
         rest, none) := by
  obtain ⟨v, ct, rv, aty, ad, po⟩ := c
  simp only at ha hp ⊢
  rcases ha with ⟨hA, hL⟩ | ⟨hA, hL⟩ | ⟨hA, hL⟩ <;> subst hA
  · have e1 : commandRequest.specEncode ⟨v, ct, rv, ipv4, ad, po⟩ ++ rest
        = v :: ct :: rv :: ipv4 :: (ad ++ (word16 po ++ rest)) := by
      simp [commandRequest.specEncode, ipv4, domainName]
    rw [e1]
    simp only [commandRequest.ReadFrom, ipv4, ipv6, domainName]
    rw [readTail_exact _ _ _ _ _ _ hL.symm hp]
    simp [ipv4, domainName, hL]
  · have e1 : commandRequest.specEncode ⟨v, ct, rv, ipv6, ad, po⟩ ++ rest
        = v :: ct :: rv :: ipv6 :: (ad ++ (word16 po ++ rest)) := by
      simp [commandRequest.specEncode, ipv6, domainName]
    rw [e1]
    simp only [commandRequest.ReadFrom, ipv4, ipv6, domainName]
    rw [readTail_exact _ _ _ _ _ _ hL.symm hp]
    simp [ipv6, domainName, hL]
  · have hm : ad.length % 256 = ad.length := Nat.mod_eq_of_lt (by omega)
    have e1 : commandRequest.specEncode ⟨v, ct, rv, domainName, ad, po⟩ ++ rest
        = v :: ct :: rv :: domainName :: ad.length % 256 ::
          (ad ++ (word16 po ++ rest)) := by
      simp [commandRequest.specEncode, domainName]
    rw [e1]
    simp only [commandRequest.ReadFrom, ipv4, ipv6, domainName]
    rw [readTail_exact _ _ _ _ _ _ (hm.trans rfl) hp]
    simp [domainName, hm]

/-- Round trip of the CommandReply codec under the §3 address rules. -/
lemma commandReply_roundtrip (r : commandReply) (rest : List Byte)
    (ha : (r.addressType = ipv4 ∧ r.addr.length = 4) ∨
          (r.addressType = ipv6 ∧ r.addr.length = 16) ∨
          (r.addressType = domainName ∧ r.addr.length ≤ 255))
    (hp : r.port < 65536) :
    r.WriteTo.2 = none ∧ commandReply.specDecode (r.WriteTo.1 ++ rest) = .ok (r, rest) := by
  obtain ⟨rep, rv, aty, ad, po⟩ := r
  simp only at ha hp ⊢
  rcases ha with ⟨hA, hL⟩ | ⟨hA, hL⟩ | ⟨hA, hL⟩ <;> subst hA
  · have e1 : (commandReply.WriteTo ⟨rep, rv, ipv4, ad, po⟩)
        = ([protoVersion, rep, rv, ipv4] ++ (ad ++ word16 po), none) := by
      simp [commandReply.WriteTo, ipv4, hL]
    refine ⟨by rw [e1], ?_⟩
    rw [e1]
    simp only [List.cons_append, List.nil_append, List.append_assoc]
    simp only [commandReply.specDecode, readByte, except_bind_ok, ipv4, ipv6, domainName]
    rw [show (4 : Nat) = ad.length from hL.symm, readChunk_exact]
    simp [word16_readU16 po hp rest]
  · have e1 : (commandReply.WriteTo ⟨rep, rv, ipv6, ad, po⟩)
        = ([protoVersion, rep, rv, ipv6] ++ (ad ++ word16 po), none) := by
      simp [commandReply.WriteTo, ipv4, ipv6, hL]
    refine ⟨by rw [e1], ?_⟩
    rw [e1]
    simp only [List.cons_append, List.nil_append, List.append_assoc]
    simp only [commandReply.specDecode, readByte, except_bind_ok, ipv4, ipv6, domainName]
    rw [show (16 : Nat) = ad.length from hL.symm, readChunk_exact]
    simp [word16_readU16 po hp rest]
  · have hm : ad.length % 256 = ad.length := Nat.mod_eq_of_lt (by omega)
    have e1 : (commandReply.WriteTo ⟨rep, rv, domainName, ad, po⟩)
        = ([protoVersion, rep, rv, domainName] ++ (ad.length % 256 :: (ad ++ word16 po)),
           none) := by
      simp [commandReply.WriteTo, ipv4, ipv6, domainName, hm]
    refine ⟨by rw [e1], ?_⟩
    rw [e1]
    simp only [List.cons_append, List.nil_append, List.append_assoc]
    simp only [commandReply.specDecode, readByte, except_bind_ok, ipv4, ipv6, domainName]
    rw [hm, readChunk_exact]
    simp [word16_readU16 po hp rest]

/-- Round trip of the LoginRequest codec. -/
lemma loginRequest_roundtrip (r : loginRequest) (rest : List Byte)
    (hu : r.username.length ≤ 255) (hp : r.password.length ≤ 255) :
    loginRequest.ReadFrom (r.specEncode ++ rest) = .ok (r, rest) := by
  obtain ⟨v, user, pass⟩ := r
  simp only at hu hp ⊢
  have hmu : user.length % 256 = user.length := Nat.mod_eq_of_lt (by omega)
  have hmp : pass.length % 256 = pass.length := Nat.mod_eq_of_lt (by omega)
  have e1 : loginRequest.specEncode ⟨v, user, pass⟩ ++ rest
      = v :: user.length % 256 :: (user ++ pass.length % 256 :: (pass ++ rest)) := by
    simp [loginRequest.specEncode]
  rw [e1]
  simp [loginRequest.ReadFrom, readByte, hmu, hmp, readChunk_exact]

/-- Round trip of the LoginReply codec. -/
lemma loginReply_roundtrip (l : loginReply) (rest : List Byte) :
    loginReply.specDecode (l.WriteTo ++ rest) = .ok (l, rest) := by
  simp [loginReply.WriteTo, loginReply.specDecode, readByte]

/-- Round trip of the GssMessage codec for well-formed frames. -/
lemma gssapiMessage_roundtrip (m : gssapiMessage) (rest : List Byte)
    (hv : m.version = subnVersion) (ht : m.token.length ≤ gssMaxTokenSize) :
    m.WriteTo.2 = none ∧ gssapiMessage.ReadFrom (m.WriteTo.1 ++ rest) = .ok (m, rest) := by
  obtain ⟨v, mt, tok⟩ := m
  simp only at hv ht ⊢
  subst hv
  have e1 : gssapiMessage.WriteTo ⟨subnVersion, mt, tok⟩
      = ([subnVersion, mt] ++ word16 tok.length ++ tok, none) := by
    simp [gssapiMessage.WriteTo, ht]
  refine ⟨by rw [e1], ?_⟩
  rw [e1]
  have htl : tok.length < 65536 := by
    simp [gssMaxTokenSize] at ht
    omega
  simp only [List.cons_append, List.nil_append, List.append_assoc]
  simp only [gssapiMessage.ReadFrom, readByte, except_bind_ok]
  rw [word16_readU16 tok.length htl (tok ++ rest), except_bind_ok, readChunk_exact]
  simp

/-- C4: decode after encode is the identity for all seven §3 frame kinds,
for every frame satisfying the §3 well-formedness rules (byte-sized
counts, address lengths matching the address type, uint16 ports, a
subnegotiation version of 1 and a token within 2^16 - 1 bytes for
GssMessage).  Where the repository has only one direction of a codec,
the other direction is modelled from the §3 layout. -/
theorem c4_frame_roundtrip :
    (∀ (a : authRequest) (rest : List Byte), a.methods.length ≤ 255 →
        authRequest.ReadFrom (a.specEncode ++ rest) = .ok (a, rest)) ∧
    (∀ (r : authReply) (rest : List Byte),
        authReply.specDecode (r.WriteTo ++ rest) = .ok (r, rest)) ∧
    (∀ (c : commandRequest) (rest : List Byte),
        ((c.addressType = ipv4 ∧ c.addr.length = 4) ∨
         (c.addressType = ipv6 ∧ c.addr.length = 16) ∨
         (c.addressType = domainName ∧ c.addr.length ≤ 255)) →
        c.port < 65536 →
        (commandRequest.ReadFrom {} (c.specEncode ++ rest)).1 = c ∧
        (commandRequest.ReadFrom {} (c.specEncode ++ rest)).2.2.1 = rest ∧
        (commandRequest.ReadFrom {} (c.specEncode ++ rest)).2.2.2 = none) ∧
    (∀ (r : commandReply) (rest : List Byte),
        ((r.addressType = ipv4 ∧ r.addr.length = 4) ∨
         (r.addressType = ipv6 ∧ r.addr.length = 16) ∨
         (r.addressType = domainName ∧ r.addr.length ≤ 255)) →
        r.port < 65536 →
        r.WriteTo.2 = none ∧
        commandReply.specDecode (r.WriteTo.1 ++ rest) = .ok (r, rest)) ∧
    (∀ (r : loginRequest) (rest : List Byte),
        r.username.length ≤ 255 → r.password.length ≤ 255 →
        loginRequest.ReadFrom (r.specEncode ++ rest) = .ok (r, rest)) ∧
    (∀ (l : loginReply) (rest : List Byte),
        loginReply.specDecode (l.WriteTo ++ rest) = .ok (l, rest)) ∧
    (∀ (m : gssapiMessage) (rest : List Byte),
        m.version = subnVersion → m.token.length ≤ gssMaxTokenSize →
        m.WriteTo.2 = none ∧
        gssapiMessage.ReadFrom (m.WriteTo.1 ++ rest) = .ok (m, rest)) := by
  refine ⟨authRequest_roundtrip, authReply_roundtrip, ?_, commandReply_roundtrip,
    loginRequest_roundtrip, loginReply_roundtrip, gssapiMessage_roundtrip⟩
  intro c rest ha hp
  rw [commandRequest_roundtrip c rest ha hp]
  exact ⟨rfl, rfl, rfl⟩

/-- Witness for C4: concrete round trips of all seven frame kinds. -/
theorem c4_witness :
    authRequest.ReadFrom ((authRequest.specEncode ⟨5, [0, 2]⟩) ++ [9])
      = .ok (⟨5, [0, 2]⟩, [9]) ∧
    authReply.specDecode ((authReply.WriteTo ⟨0⟩) ++ [9]) = .ok (⟨0⟩, [9]) ∧
    (commandRequest.ReadFrom {} ((commandRequest.specEncode
        ⟨5, 1, 0, 1, [192, 168, 0, 1], 119⟩) ++ [9])).1
      = ⟨5, 1, 0, 1, [192, 168, 0, 1], 119⟩ ∧
    commandReply.specDecode (((commandReply.WriteTo
        ⟨0, 0, 3, [103, 111], 80⟩).1) ++ [9]) = .ok (⟨0, 0, 3, [103, 111], 80⟩, [9]) ∧
    loginRequest.ReadFrom ((loginRequest.specEncode ⟨1, [97], [98]⟩) ++ [9])
      = .ok (⟨1, [97], [98]⟩, [9]) ∧
    loginReply.specDecode ((loginReply.WriteTo ⟨0⟩) ++ [9]) = .ok (⟨0⟩, [9]) ∧
    gssapiMessage.ReadFrom (((gssapiMessage.WriteTo ⟨1, 3, [7, 8]⟩).1) ++ [9])
      = .ok (⟨1, 3, [7, 8]⟩, [9]) :=
  ⟨c4_frame_roundtrip.1 ⟨5, [0, 2]⟩ [9] (by decide),
   c4_frame_roundtrip.2.1 ⟨0⟩ [9],
   (c4_frame_roundtrip.2.2.1 ⟨5, 1, 0, 1, [192, 168, 0, 1], 119⟩ [9]
     (Or.inl ⟨rfl, rfl⟩) (by decide)).1,
   (c4_frame_roundtrip.2.2.2.1 ⟨0, 0, 3, [103, 111], 80⟩ [9]
     (Or.inr (Or.inr ⟨rfl, by decide⟩)) (by decide)).2,
   c4_frame_roundtrip.2.2.2.2.1 ⟨1, [97], [98]⟩ [9] (by decide) (by decide),
   c4_frame_roundtrip.2.2.2.2.2.1 ⟨0⟩ [9],
   (c4_frame_roundtrip.2.2.2.2.2.2 ⟨1, 3, [7, 8]⟩ [9] rfl (by decide)).2⟩

/-- Unfolding one engine iteration. -/
lemma runFrom_succ (env : Env) (fuel : Nat) (tag : Tag) (st : EngineState) :
    runFrom env (fuel + 1) tag st
      = match step env tag st with
        | (none, st') => st'
        | (some t', st') => runFrom env fuel t' st' := rfl

/-- If no offered code is configured, the selection loop yields nothing. -/
lemma chooseMethod_none (authMap : Byte → Option AuthHandler) (ms : List Byte)
    (h : ∀ m ∈ ms, authMap m = none) : chooseMethod authMap ms = none := by
  induction ms with
  | nil => rfl
  | cons m ms ih =>
    have hm := h m (by simp)
    simp only [chooseMethod, hm]
    exact ih fun x hx => h x (by simp [hx])

/-- The selection loop picks the first configured code in client order. -/
lemma chooseMethod_first (authMap : Byte → Option AuthHandler) (l₁ l₂ : List Byte)
    (m₀ : Byte) (h : AuthHandler) (h1 : ∀ m ∈ l₁, authMap m = none)
    (h0 : authMap m₀ = some h) :
    chooseMethod authMap (l₁ ++ m₀ :: l₂) = some h := by
  induction l₁ with
  | nil => simp [chooseMethod, h0]
  | cons a l ih =>
    have ha := h1 a (by simp)
    simp only [List.cons_append, chooseMethod, ha]
    exact ih fun x hx => h1 x (by simp [hx])

/-- Every transition only appends to the written output. -/
lemma step_out_mono (env : Env) (t : Tag) (st : EngineState) :
    st.out <+: (step env t st).2.out := by
  have hp : ∀ (s : EngineState) k w, s.out <+: (emitFrame s k w).out :=
    fun s k w => List.prefix_append _ _
  cases t
  case initial =>
    simp only [step, stepInitial]
    split
    · exact List.prefix_rfl
    · split
      · exact List.prefix_rfl
      · split <;> exact List.prefix_rfl
  case failAuth => exact hp _ _ _
  case authenticate =>
    simp only [step, stepAuthenticate]
    split <;> exact hp _ _ _
  case getCommand =>
    simp only [step, stepGetCommand]
    split
    · exact List.prefix_rfl
    · split
      · exact List.prefix_rfl
      · split
        · exact List.prefix_rfl
        · split
          · exact List.prefix_rfl
          · split <;> exact List.prefix_rfl
  case runConnect =>
    simp only [step, stepRunConnect]
    split
    · exact List.prefix_rfl
    · split
      · exact List.prefix_rfl
      · exact hp _ _ _
  case runBind =>
    simp only [step, stepRunBind]
    split <;> exact List.prefix_rfl
  case runUDPAssoc => exact List.prefix_rfl
  case defaultBind =>
    simp only [step, stepDefaultBind]
    split
    · exact List.prefix_rfl
    · split
      · exact List.prefix_rfl
      · split
        · simp only [emitFrame]
          exact List.prefix_append _ _
        · split
          · simp only [emitFrame]
            exact List.prefix_append _ _
          · split
            · simp only [emitFrame]
              exact List.prefix_append _ _
            · simp only [emitFrame]
              rw [List.append_assoc]
              exact List.prefix_append _ _
  case failCommand => exact hp _ _ _

/-- A run only appends to the written output. -/
lemma runFrom_out_mono (env : Env) :
    ∀ (fuel : Nat) (tag : Tag) (st : EngineState),
      st.out <+: (runFrom env fuel tag st).out := by
  intro fuel
  induction fuel with
  | zero => intro tag st; exact List.prefix_rfl
  | succ f ih =>
    intro tag st
    rw [runFrom_succ]
    rcases h : step env tag st with ⟨next, st'⟩
    have h1 : st.out <+: st'.out := by
      have h2 := step_out_mono env tag st
      rw [h] at h2
      exact h2
    cases next
    · exact h1
    · exact h1.trans (ih _ _)

/-- C2: on a well-formed MethodRequest, provided every configured handler
is registered under its own method code, the engine selects the first
offered method that has a configured handler (in the client's order) and
the first two bytes it emits are 0x05 followed by that method code; if no
offered method is configured, the complete output of the run is exactly
0x05 0xFF. -/
theorem c2_method_selection (env : Env) (methods rest : List Byte)
    (_hlen : methods.length ≤ 255) (hne : methods ≠ [])
    (hWF : ∀ code h, env.authMap code = some h → h.method = code) :
    (∀ (l₁ : List Byte) (m₀ : Byte) (l₂ : List Byte) (h : AuthHandler),
        methods = l₁ ++ m₀ :: l₂ →
        (∀ m ∈ l₁, env.authMap m = none) → env.authMap m₀ = some h →
        ∀ fuel, (outBytes (runEngine env
            (protoVersion :: methods.length :: (methods ++ rest)) (fuel + 2)).out).take 2
          = [protoVersion, m₀]) ∧
    ((∀ m ∈ methods, env.authMap m = none) →
        ∀ fuel, outBytes (runEngine env
            (protoVersion :: methods.length :: (methods ++ rest)) (fuel + 2)).out
          = [protoVersion, typeError]) := by
  have hread : authRequest.ReadFrom (protoVersion :: methods.length :: (methods ++ rest))
      = .ok (⟨protoVersion, methods⟩, rest) := by
    simp [authRequest.ReadFrom, readByte, readChunk_exact]
  have hval : authRequest.validate ⟨protoVersion, methods⟩ = .ok () := by
    simp [authRequest.validate, hne]
  constructor
  · intro l₁ m₀ l₂ h hdec h1 h0 fuel
    have hcm : chooseMethod env.authMap methods = some h := by
      rw [hdec]
      exact chooseMethod_first _ _ _ _ _ h1 h0
    have hs1 : step env .initial
        { input := protoVersion :: methods.length :: (methods ++ rest), conn := .raw 0 }
        = (some .authenticate,
           { input := rest, conn := .raw 0, methods := methods, method := some h }) := by
      simp [step, stepInitial, hread, hval, hcm]
    have hm0 : h.method = m₀ := hWF m₀ h h0
    have hrun : runEngine env (protoVersion :: methods.length :: (methods ++ rest)) (fuel + 2)
        = runFrom env (fuel + 1) .authenticate
            { input := rest, conn := .raw 0, methods := methods, method := some h } := by
      rw [runEngine, runFrom_succ, hs1]
    rw [hrun]
    have hpre : ([⟨.methodReply, [protoVersion, m₀], true⟩] : List OutFrame)
        <+: (runFrom env (fuel + 1) .authenticate
              { input := rest, conn := .raw 0, methods := methods,
                method := some h }).out := by
      rw [runFrom_succ]
      rcases henv : env.authOutcome with e | c
      · have hs2 : step env .authenticate
            { input := rest, conn := .raw 0, methods := methods, method := some h }
            = (none,
               { input := rest, conn := .raw 0, methods := methods, method := some h,
                 out := [⟨.methodReply, [protoVersion, m₀], true⟩] }) := by
          simp [step, stepAuthenticate, henv, hm0, emitFrame, authReply.WriteTo]
        rw [hs2]
      · have hs2 : step env .authenticate
            { input := rest, conn := .raw 0, methods := methods, method := some h }
            = (some .getCommand,
               { input := rest, conn := c, methods := methods, method := some h,
                 out := [⟨.methodReply, [protoVersion, m₀], true⟩] }) := by
          simp [step, stepAuthenticate, henv, hm0, emitFrame, authReply.WriteTo]
        rw [hs2]
        exact runFrom_out_mono env fuel .getCommand
          { input := rest, conn := c, methods := methods, method := some h,
            out := [⟨.methodReply, [protoVersion, m₀], true⟩] }
    obtain ⟨t, ht⟩ := hpre
    rw [← ht]
    simp [outBytes]
  · intro hnone fuel
    have hcm : chooseMethod env.authMap methods = none := chooseMethod_none _ _ hnone
    have hs1 : step env .initial
        { input := protoVersion :: methods.length :: (methods ++ rest), conn := .raw 0 }
        = (some .failAuth,
           { input := rest, conn := .raw 0, methods := methods }) := by
      simp [step, stepInitial, hread, hval, hcm]
    have hs2 : step env .failAuth { input := rest, conn := .raw 0, methods := methods }
        = (none, { input := rest, conn := .raw 0, methods := methods,
                   out := [⟨.methodReply, [protoVersion, typeError], true⟩] }) := by
      simp [step, stepFailAuth, emitFrame, authReply.WriteTo]
    have hrun1 : runEngine env (protoVersion :: methods.length :: (methods ++ rest)) (fuel + 2)
        = runFrom env (fuel + 1) .failAuth
            { input := rest, conn := .raw 0, methods := methods } := by
      rw [runEngine, runFrom_succ, hs1]
    have hrun2 : runFrom env (fuel + 1) .failAuth
        { input := rest, conn := .raw 0, methods := methods }
        = { input := rest, conn := .raw 0, methods := methods,
            out := [⟨.methodReply, [protoVersion, typeError], true⟩] } := by
      rw [runFrom_succ, hs2]
    rw [hrun1, hrun2]
    simp [outBytes]

/-- An environment whose configured auth map accepts only no-auth. -/
def envNoAuthOnly : Env where
  authMap := fun c => if c = typeNoAuth then some ⟨typeNoAuth⟩ else none
  authOutcome := .ok (.raw 0)
  hasListen := false
  connectResult := .error (.other 0)
  listenResult := .error (.other 0)
  acceptResult := .error (.other 0)

/-- Witness for C2: offered methods 0x02 then 0x00, with only no-auth
configured: the reply selects 0x00, the first configured code in the
client's order. -/
theorem c2_witness :
    (outBytes (runEngine envNoAuthOnly
        (protoVersion :: [typeLogin, typeNoAuth].length ::
          ([typeLogin, typeNoAuth] ++ [])) (0 + 2)).out).take 2
      = [protoVersion, typeNoAuth] :=
  (c2_method_selection envNoAuthOnly [typeLogin, typeNoAuth] [] (by decide) (by decide)
      (by
        intro code h hh
        by_cases hc : code = typeNoAuth
        · subst hc
          simp [envNoAuthOnly] at hh
          rw [← hh]
        · simp [envNoAuthOnly, hc] at hh)).1
    [typeLogin] typeNoAuth [] ⟨typeNoAuth⟩ rfl (by decide) (by decide) 0

/- ### Reply-count bounds for the engine (C3) -/

/-- How many MethodReply frames a run can still write from a given state. -/
def mrBound : Tag → Nat
  | .initial => 1
  | .failAuth => 1
  | .authenticate => 1
  | _ => 0

/-- The top-level CommandReply bound: two when BIND is configured. -/
def crBoundTop : Bool → Nat
  | true => 2
  | false => 1

/-- How many CommandReply frames a run can still write from a given state
(parameterised by whether a BIND listener is configured). -/
def crBound (hl : Bool) : Tag → Nat
  | .runConnect => 1
  | .runUDPAssoc => 1
  | .failCommand => 1
  | .defaultBind => 2
  | _ => crBoundTop hl

def mrBoundOpt : Option Tag → Nat
  | none => 0
  | some t => mrBound t

def crBoundOpt (hl : Bool) : Option Tag → Nat
  | none => 0
  | some t => crBound hl t

/-- The tags whose behaviour reads the stored (already validated) command. -/
def needsCmd : Tag → Bool
  | .runConnect => true
  | .runBind => true
  | .runUDPAssoc => true
  | .defaultBind => true
  | .failCommand => true
  | _ => false

lemma mrCount_append1 (o : List OutFrame) (f : OutFrame) :
    mrCount (o ++ [f]) = mrCount o + (if f.kind = .methodReply then 1 else 0) := by
  obtain ⟨k, b, w⟩ := f
  cases k <;> simp [mrCount, List.countP_append, List.countP_cons] <;> decide

lemma crCount_append1 (o : List OutFrame) (f : OutFrame) :
    crCount (o ++ [f]) = crCount o + (if f.kind = .commandReply then 1 else 0) := by
  obtain ⟨k, b, w⟩ := f
  cases k <;> simp [crCount, List.countP_append, List.countP_cons] <;> decide

lemma allWhole_append1 (o : List OutFrame) (f : OutFrame) :
    allWhole (o ++ [f]) ↔ allWhole o ∧ f.whole = true := by
  simp [allWhole, or_imp, forall_and, forall_eq]

/-- To4 always produces four bytes when it produces anything. -/
lemma ipTo4_length (ip l : List Byte) (h : ipTo4 ip = some l) : l.length = 4 := by
  unfold ipTo4 at h
  split_ifs at h with h1 h2
  · simp_all
  · simp only [Option.some.injEq] at h
    subst h
    simp [h2.1]

/-- parseAddress on a real (4- or 16-byte) TCP address yields a reply
address matching its declared type. -/
lemma parseAddress_wf (a : TCPAddr) (hip : a.ip.length = 4 ∨ a.ip.length = 16)
    (aty : Byte) (ip : List Byte) (p : Nat)
    (h : parseAddress (some a) = .ok (aty, ip, p)) :
    (aty = ipv4 ∧ ip.length = 4) ∨ (aty = ipv6 ∧ ip.length = 16) := by
  simp only [parseAddress] at h
  cases h4 : ipTo4 a.ip with
  | some l =>
    rw [h4] at h
    simp only [Except.ok.injEq, Prod.mk.injEq] at h
    exact Or.inl ⟨h.1.symm, by rw [← h.2.1]; exact ipTo4_length _ _ h4⟩
  | none =>
    rw [h4] at h
    simp only [Except.ok.injEq, Prod.mk.injEq] at h
    refine Or.inr ⟨h.1.symm, ?_⟩
    rw [← h.2.1]
    rcases hip with h16 | h16
    · exfalso
      unfold ipTo4 at h4
      rw [if_pos h16] at h4
      exact Option.noConfusion h4
    · exact h16

/-- A Succeeded reply built from a well-formed bound address is written
completely. -/
lemma writeTo_whole_of_wf (aty : Byte) (ip : List Byte) (p : Nat)
    (h : (aty = ipv4 ∧ ip.length = 4) ∨ (aty = ipv6 ∧ ip.length = 16)) :
    (commandReply.WriteTo
      { rep := succeeded, rsv := 0, addressType := aty, addr := ip, port := p }).2
      = none := by
  rcases h with ⟨hA, hL⟩ | ⟨hA, hL⟩ <;>
    simp [commandReply.WriteTo, hA, hL, ipv4, ipv6]

/-- The host-address well-formedness assumption: every TCP address the
host hands the engine has a 4- or 16-byte IP, as net.TCPAddr guarantees. -/
def envAddrOk (env : Env) : Prop :=
  (∀ a, env.connectResult = .ok (some a) → a.ip.length = 4 ∨ a.ip.length = 16) ∧
  (∀ a, env.listenResult = .ok (some a) → a.ip.length = 4 ∨ a.ip.length = 16) ∧
  (∀ a, env.acceptResult = .ok (some a) → a.ip.length = 4 ∨ a.ip.length = 16)

lemma mrCount_emit_mr (o : List OutFrame) (b : List Byte) (w : Bool) :
    mrCount (o ++ [⟨.methodReply, b, w⟩]) = mrCount o + 1 := by
  simp [mrCount_append1]

lemma mrCount_emit_cr (o : List OutFrame) (b : List Byte) (w : Bool) :
    mrCount (o ++ [⟨.commandReply, b, w⟩]) = mrCount o := by
  simp [mrCount_append1]

lemma crCount_emit_mr (o : List OutFrame) (b : List Byte) (w : Bool) :
    crCount (o ++ [⟨.methodReply, b, w⟩]) = crCount o := by
  simp [crCount_append1]

lemma crCount_emit_cr (o : List OutFrame) (b : List Byte) (w : Bool) :
    crCount (o ++ [⟨.commandReply, b, w⟩]) = crCount o + 1 := by
  simp [crCount_append1]

/-- One transition respects the reply-count bounds, preserves frame
wholeness (under the host-address assumption), and hands every successor
that reads the command a validated command. -/
lemma step_spec (env : Env) (hE : envAddrOk env) (t : Tag) (st : EngineState)
    (hInv : needsCmd t = true → st.command.validate = .ok ()) :
    mrCount (step env t st).2.out + mrBoundOpt (step env t st).1
        ≤ mrCount st.out + mrBound t ∧
    crCount (step env t st).2.out + crBoundOpt env.hasListen (step env t st).1
        ≤ crCount st.out + crBound env.hasListen t ∧
    (allWhole st.out → allWhole (step env t st).2.out) ∧
    (∀ t', (step env t st).1 = some t' → needsCmd t' = true →
        (step env t st).2.command.validate = .ok ()) := by
  cases t
  case initial =>
    simp only [step, stepInitial]
    split
    · exact ⟨by simp only [mrBoundOpt, mrBound]; omega,
        by simp only [crBoundOpt]; omega, fun h => h, fun t' h => nomatch h⟩
    · split
      · exact ⟨by simp only [mrBoundOpt, mrBound]; omega,
          by simp only [crBoundOpt]; omega, fun h => h, fun t' h => nomatch h⟩
      · split
        · refine ⟨by simp only [mrBoundOpt, mrBound]; omega, ?_, fun h => h, ?_⟩
          · cases env.hasListen <;> simp only [crBoundOpt, crBound, crBoundTop] <;> omega
          · intro t' h ht'
            obtain rfl : Tag.authenticate = t' := by simpa using h
            simp [needsCmd] at ht'
        · refine ⟨by simp only [mrBoundOpt, mrBound]; omega, ?_, fun h => h, ?_⟩
          · cases env.hasListen <;> simp only [crBoundOpt, crBound, crBoundTop] <;> omega
          · intro t' h ht'
            obtain rfl : Tag.failAuth = t' := by simpa using h
            simp [needsCmd] at ht'
  case failAuth =>
    simp only [step, stepFailAuth, emitFrame]
    refine ⟨?_, ?_, ?_, fun t' h => nomatch h⟩
    · simp only [mrBoundOpt, mrBound, mrCount_emit_mr]
      omega
    · simp only [crBoundOpt, crCount_emit_mr]
      omega
    · intro h
      rw [allWhole_append1]
      exact ⟨h, rfl⟩
  case authenticate =>
    simp only [step, stepAuthenticate, emitFrame]
    split
    · refine ⟨?_, ?_, ?_, fun t' h => nomatch h⟩
      · simp only [mrBoundOpt, mrBound, mrCount_emit_mr]
        omega
      · simp only [crBoundOpt, crCount_emit_mr]
        omega
      · intro h
        rw [allWhole_append1]
        exact ⟨h, rfl⟩
    · refine ⟨?_, ?_, ?_, ?_⟩
      · simp only [mrBoundOpt, mrBound, mrCount_emit_mr]
        omega
      · cases env.hasListen <;>
          simp only [crBoundOpt, crBound, crBoundTop, crCount_emit_mr] <;> omega
      · intro h
        rw [allWhole_append1]
        exact ⟨h, rfl⟩
      · intro t' h ht'
        obtain rfl : Tag.getCommand = t' := by simpa using h
        simp [needsCmd] at ht'
  case getCommand =>
    simp only [step, stepGetCommand]
    split
    · exact ⟨by simp only [mrBoundOpt, mrBound]; omega,
        by simp only [crBoundOpt]; omega, fun h => h, fun t' h => nomatch h⟩
    · split
      · exact ⟨by simp only [mrBoundOpt, mrBound]; omega,
          by simp only [crBoundOpt]; omega, fun h => h, fun t' h => nomatch h⟩
      · rename_i hvalveil hval
        split_ifs with h1 h2 h3
        · refine ⟨by simp only [mrBoundOpt, mrBound]; omega, ?_, fun h => h, ?_⟩
          · cases env.hasListen <;> simp only [crBoundOpt, crBound, crBoundTop] <;> omega
          · intro t' h ht'
            obtain rfl : Tag.runConnect = t' := by simpa using h
            exact hval
        · refine ⟨by simp only [mrBoundOpt, mrBound]; omega, ?_, fun h => h, ?_⟩
          · cases env.hasListen <;> simp only [crBoundOpt, crBound, crBoundTop] <;> omega
          · intro t' h ht'
            obtain rfl : Tag.runBind = t' := by simpa using h
            exact hval
        · refine ⟨by simp only [mrBoundOpt, mrBound]; omega, ?_, fun h => h, ?_⟩
          · cases env.hasListen <;> simp only [crBoundOpt, crBound, crBoundTop] <;> omega
          · intro t' h ht'
            obtain rfl : Tag.runUDPAssoc = t' := by simpa using h
            exact hval
        · refine ⟨by simp only [mrBoundOpt, mrBound]; omega, ?_, fun h => h, ?_⟩
          · cases env.hasListen <;> simp only [crBoundOpt, crBound, crBoundTop] <;> omega
          · intro t' h ht'
            obtain rfl : Tag.failCommand = t' := by simpa using h
            exact hval
  case runConnect =>
    simp only [step, stepRunConnect]
    split
    · refine ⟨by simp only [mrBoundOpt, mrBound]; omega, ?_, fun h => h, ?_⟩
      · cases env.hasListen <;> simp only [crBoundOpt, crBound, crBoundTop] <;> omega
      · intro t' h ht'
        obtain rfl : Tag.failCommand = t' := by simpa using h
        exact hInv rfl
    · split
      · exact ⟨by simp only [mrBoundOpt, mrBound]; omega,
          by simp only [crBoundOpt, crBound]; omega, fun h => h, fun t' h => nomatch h⟩
      · rename_i x1 localAddr hloc x2 aty ip prt hparse
        simp only [emitFrame]
        refine ⟨?_, ?_, ?_, fun t' h => nomatch h⟩
        · simp only [mrBoundOpt, mrCount_emit_cr, mrBound]
          omega
        · simp only [crBoundOpt, crCount_emit_cr, crBound]
          omega
        · intro h
          rw [allWhole_append1]
          refine ⟨h, ?_⟩
          cases localAddr with
          | none => simp [parseAddress] at hparse
          | some a =>
            have hip := hE.1 a hloc
            have hwf := parseAddress_wf a hip aty ip prt hparse
            simp [writeTo_whole_of_wf aty ip (prt % 65536) hwf]
  case runBind =>
    simp only [step, stepRunBind]
    split
    · refine ⟨by simp only [mrBoundOpt, mrBound]; omega, ?_, fun h => h, ?_⟩
      · rename_i hl
        simp only [crBoundOpt, crBound, crBoundTop, hl]
        omega
      · intro t' h ht'
        obtain rfl : Tag.defaultBind = t' := by simpa using h
        exact hInv rfl
    · refine ⟨by simp only [mrBoundOpt, mrBound]; omega, ?_, fun h => h, ?_⟩
      · cases env.hasListen <;> simp only [crBoundOpt, crBound, crBoundTop] <;> omega
      · intro t' h ht'
        obtain rfl : Tag.failCommand = t' := by simpa using h
        exact hInv rfl
  case runUDPAssoc =>
    simp only [step, stepRunUDPAssoc]
    refine ⟨by simp only [mrBoundOpt, mrBound]; omega,
      by simp only [crBoundOpt, crBound]; omega, fun h => h, ?_⟩
    intro t' h ht'
    obtain rfl : Tag.failCommand = t' := by simpa using h
    exact hInv rfl
  case defaultBind =>
    simp only [step, stepDefaultBind]
    split
    · refine ⟨by simp only [mrBoundOpt, mrBound]; omega, ?_, fun h => h, ?_⟩
      · simp only [crBoundOpt, crBound, crBoundTop]
        omega
      · intro t' h ht'
        obtain rfl : Tag.failCommand = t' := by simpa using h
        exact hInv rfl
    · split
      · refine ⟨by simp only [mrBoundOpt, mrBound]; omega, ?_, fun h => h, ?_⟩
        · simp only [crBoundOpt, crBound, crBoundTop]
          omega
        · intro t' h ht'
          obtain rfl : Tag.failCommand = t' := by simpa using h
          exact hInv rfl
      · rename_i x1 lsAddr hls x2 aty ip prt hparse
        split
        · simp only [emitFrame]
          refine ⟨?_, ?_, ?_, fun t' h => nomatch h⟩
          · simp only [mrBoundOpt, mrCount_emit_cr, mrBound]
            omega
          · simp only [crBoundOpt, crCount_emit_cr, crBound]
            omega
          · intro h
            rw [allWhole_append1]
            refine ⟨h, ?_⟩
            cases lsAddr with
            | none => simp [parseAddress] at hparse
            | some a =>
              have hip := hE.2.1 a hls
              have hwf := parseAddress_wf a hip aty ip prt hparse
              simp [writeTo_whole_of_wf aty ip (prt % 65536) hwf]
        · split
          · simp only [emitFrame]
            refine ⟨?_, ?_, ?_, ?_⟩
            · simp only [mrBoundOpt, mrCount_emit_cr, mrBound]
              omega
            · simp only [crBoundOpt, crCount_emit_cr, crBound]
              omega
            · intro h
              rw [allWhole_append1]
              refine ⟨h, ?_⟩
              cases lsAddr with
              | none => simp [parseAddress] at hparse
              | some a =>
                have hip := hE.2.1 a hls
                have hwf := parseAddress_wf a hip aty ip prt hparse
                simp [writeTo_whole_of_wf aty ip (prt % 65536) hwf]
            · intro t' h ht'
              obtain rfl : Tag.failCommand = t' := by simpa using h
              exact hInv rfl
          · split
            · simp only [emitFrame]
              refine ⟨?_, ?_, ?_, ?_⟩
              · simp only [mrBoundOpt, mrCount_emit_cr, mrBound]
                omega
              · simp only [crBoundOpt, crCount_emit_cr, crBound]
                omega
              · intro h
                rw [allWhole_append1]
                refine ⟨h, ?_⟩
                cases lsAddr with
                | none => simp [parseAddress] at hparse
                | some a =>
                  have hip := hE.2.1 a hls
                  have hwf := parseAddress_wf a hip aty ip prt hparse
                  simp [writeTo_whole_of_wf aty ip (prt % 65536) hwf]
              · intro t' h ht'
                obtain rfl : Tag.failCommand = t' := by simpa using h
                exact hInv rfl
            · rename_i x3 remoteAddr hacc x4 aty2 ip2 prt2 hparse2
              simp only [emitFrame]
              refine ⟨?_, ?_, ?_, fun t' h => nomatch h⟩
              · simp only [mrBoundOpt, mrCount_emit_cr, mrBound]
                omega
              · simp only [crBoundOpt, crCount_emit_cr, crBound]
                omega
              · intro h
                rw [allWhole_append1, allWhole_append1]
                refine ⟨⟨h, ?_⟩, ?_⟩
                · cases lsAddr with
                  | none => simp [parseAddress] at hparse
                  | some a =>
                    have hip := hE.2.1 a hls
                    have hwf := parseAddress_wf a hip aty ip prt hparse
                    simp [writeTo_whole_of_wf aty ip (prt % 65536) hwf]
                · cases remoteAddr with
                  | none => simp [parseAddress] at hparse2
                  | some a =>
                    have hip := hE.2.2 a hacc
                    have hwf := parseAddress_wf a hip aty2 ip2 prt2 hparse2
                    simp [writeTo_whole_of_wf aty2 ip2 (prt2 % 65536) hwf]
  case failCommand =>
    simp only [step, stepFailCommand, emitFrame]
    refine ⟨?_, ?_, ?_, fun t' h => nomatch h⟩
    · simp only [mrBoundOpt, mrCount_emit_cr, mrBound]
      omega
    · simp only [crBoundOpt, crCount_emit_cr, crBound]
      omega
    · intro h
      rw [allWhole_append1]
      refine ⟨h, ?_⟩
      have hw := (writeTo_whole_of_validate st.command (hInv rfl) st.status).1
      simp only [echoReply] at hw
      simp [hw]

/-- Whole-run reply-count bounds and frame wholeness. -/
lemma runFrom_spec (env : Env) (hE : envAddrOk env) :
    ∀ (fuel : Nat) (tag : Tag) (st : EngineState),
      (needsCmd tag = true → st.command.validate = .ok ()) → allWhole st.out →
      mrCount (runFrom env fuel tag st).out ≤ mrCount st.out + mrBound tag ∧
      crCount (runFrom env fuel tag st).out
          ≤ crCount st.out + crBound env.hasListen tag ∧
      allWhole (runFrom env fuel tag st).out := by
  intro fuel
  induction fuel with
  | zero =>
    intro tag st _ hWhole
    exact ⟨Nat.le_add_right _ _, Nat.le_add_right _ _, hWhole⟩
  | succ f ih =>
    intro tag st hInv hWhole
    have hs := step_spec env hE tag st hInv
    rw [runFrom_succ]
    rcases h : step env tag st with ⟨next, st'⟩
    rw [h] at hs
    obtain ⟨hs1, hs2, hsW, hsI⟩ := hs
    cases next with
    | none =>
      dsimp only [mrBoundOpt, crBoundOpt] at hs1 hs2
      dsimp only
      exact ⟨by omega, by omega, hsW hWhole⟩
    | some t' =>
      dsimp only [mrBoundOpt, crBoundOpt] at hs1 hs2
      dsimp only
      have hInv' : needsCmd t' = true → st'.command.validate = .ok () :=
        fun hn => hsI t' rfl hn
      obtain ⟨ih1, ih2, ih3⟩ := ih t' st' hInv' (hsW hWhole)
      exact ⟨by omega, by omega, ih3⟩

/-- An environment with no configured auth methods and failing host
callbacks. -/
def envEmptyAuth : Env where
  authMap := fun _ => none
  authOutcome := .error (.other 0)
  hasListen := false
  connectResult := .error (.other 0)
  listenResult := .error (.other 0)
  acceptResult := .error (.other 0)

/-- An environment where no-auth is configured and the BIND listener and
accept both succeed with IPv4 TCP addresses. -/
def envBindDemo : Env where
  authMap := fun c => if c = typeNoAuth then some ⟨typeNoAuth⟩ else none
  authOutcome := .ok (.raw 0)
  hasListen := true
  connectResult := .error (.other 0)
  listenResult := .ok (some ⟨[10, 0, 0, 1], 4⟩)
  acceptResult := .ok (some ⟨[9, 9, 9, 9], 5⟩)

/-- A client conversation offering no-auth and then requesting BIND to
1.2.3.4:80. -/
def bindDemoInput : List Byte := [5, 1, 0] ++ [5, 2, 0, 1, 1, 2, 3, 4, 0, 80]

/-- C3 counterexample: the claim as stated is false on the code.  A run
whose MethodRequest cannot be read terminates with zero MethodReplies
(not exactly one), and a successful BIND run writes two CommandReplies
(not at most one). -/
theorem c3_counterexample :
    mrCount (runEngine envEmptyAuth [] 1).out = 0 ∧
    crCount (runEngine envBindDemo bindDemoInput 6).out = 2 := by
  refine ⟨by decide, by decide⟩

/-- C3 amended: in every run the engine writes at most one MethodReply
(none when the method stage fails before the reply), and at most two
CommandReplies, with two possible only when a BIND listener is configured
(the BIND path's two replies, or its first reply followed by a failure
reply); provided every host-supplied TCP address carries a 4- or 16-byte
IP, no half-written frames are produced. -/
theorem c3_amended_reply_bounds (env : Env) (input : List Byte) (fuel : Nat)
    (hE : envAddrOk env) :
    mrCount (runEngine env input fuel).out ≤ 1 ∧
    crCount (runEngine env input fuel).out ≤ 2 ∧
    (env.hasListen = false → crCount (runEngine env input fuel).out ≤ 1) ∧
    allWhole (runEngine env input fuel).out := by
  have hs := runFrom_spec env hE fuel .initial { input := input, conn := .raw 0 }
    (by simp [needsCmd]) (by simp [allWhole])
  have hmr0 : mrCount ([] : List OutFrame) = 0 := by simp [mrCount]
  have hcr0 : crCount ([] : List OutFrame) = 0 := by simp [crCount]
  refine ⟨?_, ?_, ?_, hs.2.2⟩
  · have h1 := hs.1
    rw [show ({ input := input, conn := .raw 0 } : EngineState).out = [] from rfl,
      hmr0] at h1
    simpa [runEngine, mrBound] using h1
  · have h2 := hs.2.1
    rw [show ({ input := input, conn := .raw 0 } : EngineState).out = [] from rfl,
      hcr0] at h2
    cases hhl : env.hasListen <;> rw [hhl] at h2 <;>
      simpa [runEngine, crBound, crBoundTop] using Nat.le_trans h2 (by simp [crBound, crBoundTop])
  · intro hhl
    have h2 := hs.2.1
    rw [show ({ input := input, conn := .raw 0 } : EngineState).out = [] from rfl,
      hcr0, hhl] at h2
    simpa [runEngine, crBound, crBoundTop] using h2

/-- Witness for the amended C3 at a concrete environment and input. -/
theorem c3_witness :
    mrCount (runEngine envEmptyAuth [] 1).out ≤ 1 ∧
    crCount (runEngine envEmptyAuth [] 1).out ≤ 2 ∧
    (envEmptyAuth.hasListen = false → crCount (runEngine envEmptyAuth [] 1).out ≤ 1) ∧
    allWhole (runEngine envEmptyAuth [] 1).out :=
  c3_amended_reply_bounds envEmptyAuth [] 1
    (by refine ⟨?_, ?_, ?_⟩ <;> intro a ha <;> simp [envEmptyAuth] at ha)

end Proxyme
